import Mathlib

/-!
# Verification of the VanCamera Windows receiver pipeline

Shallow embedding, in Lean 4, of the parts of the VanCamera desktop
application relevant to its specification: the frame-orientation
transforms of `ui_app.py`, the packet framing and decode-error policy of
`video_receiver.py`, the SSL-context construction of
`certificate_handler.py`, the letterbox composition of
`virtual_cam_bridge.py`, and the lock/notification discipline of
`device_discovery.py`.

Frames are row-major matrices, `List (List Nat)`, one number per pixel
(the pixel payload is irrelevant to every transform considered: the
transforms permute positions only).
-/

namespace VanCamera

/-- A video frame: row-major matrix of pixels. -/
abbrev Mat := List (List Nat)

/-- `np.fliplr`: reverse each row (horizontal mirror). -/
def fliplr (m : Mat) : Mat := m.map List.reverse

/-- `np.rot90(m, k=1)`: one 90° counter-clockwise rotation.
`rot90 m` has entry `(i, j)` equal to `m (j) (w - 1 - i)`, which is
`((m.map List.reverse).transpose)`. -/
def rot90 (m : Mat) : Mat := (m.map List.reverse).transpose

/-- `np.rot90(m, k)`: `k` successive 90° counter-clockwise rotations. -/
def rot90k (m : Mat) : Nat → Mat
  | 0 => m
  | k + 1 => rot90 (rot90k m k)

/-- `VanCameraApp._rotate_front_camera` from `ui_app.py`: standard
rotation for the front camera. -/
def rotate_front_camera (frame : Mat) (orientation_degrees : Nat) : Mat :=
  if orientation_degrees = 0 then frame
  else if orientation_degrees = 90 then rot90k frame 1
  else if orientation_degrees = 180 then rot90k frame 2
  else if orientation_degrees = 270 then rot90k frame 3
  else frame

/-- `VanCameraApp._process_frame_for_preview` from `ui_app.py`. -/
def process_frame_for_preview (frame : Mat) (orientation_degrees : Nat)
    (is_back_camera : Bool) : Mat :=
  if is_back_camera then
    if orientation_degrees = 0 then frame
    else if orientation_degrees = 90 then rot90k frame 3
    else if orientation_degrees = 180 then rot90k frame 2
    else if orientation_degrees = 270 then rot90k frame 1
    else frame
  else
    fliplr (rotate_front_camera frame orientation_degrees)

/-- `VanCameraApp._process_frame_for_vcam` from `ui_app.py`: the
sink-path (virtual camera) transform.  Note the source treats both
landscape orientations (0° and 180°) of the back camera identically:
a bare horizontal flip. -/
def process_frame_for_vcam (frame : Mat) (orientation_degrees : Nat)
    (is_back_camera : Bool) : Mat :=
  if is_back_camera then
    if orientation_degrees = 0 then fliplr frame
    else if orientation_degrees = 90 then fliplr (rot90k frame 3)
    else if orientation_degrees = 180 then fliplr frame
    else if orientation_degrees = 270 then fliplr (rot90k frame 1)
    else frame
  else
    rotate_front_camera frame orientation_degrees

end VanCamera

namespace VanCamera

/-- C1: the claim's formula for the back-camera sink path — rotate by
`(360 − orientationDegrees) mod 360` (counter-clockwise, in units of
90°) and then mirror horizontally. -/
def back_sink_spec (frame : Mat) (orientation_degrees : Nat) : Mat :=
  fliplr (rot90k frame (((360 - orientation_degrees) % 360) / 90))

/-! ## Streaming receiver (`video_receiver.py`) -/

/-- A decode oracle standing for `self.codec_context.decode`: `none`
models a raised `InvalidDataError`/`FFmpegError`, `some fs` a
successful decode producing the (possibly empty) list of frames. -/
abbrev Decoder := List Nat → Option (List Mat)

/-- The mutable receiver state touched by the receive loop: the two
counters kept on the `VideoReceiver`, the number of times
`_init_decoder` has been called, the list of `(frame, orientation,
mirror)` triples delivered to `frame_callback`, and the `is_running`
flag. -/
structure RecvState where
  decode_error_count : Nat
  frames_decoded : Nat
  reinit_count : Nat
  emitted : List (Mat × Nat × Bool)
  running : Bool
deriving Repr, DecidableEq

/-- `VideoReceiver._init_decoder`: constructs a fresh decoder in place
and zeroes both counters. -/
def init_decoder (st : RecvState) : RecvState :=
  { st with decode_error_count := 0, frames_decoded := 0,
            reinit_count := st.reinit_count + 1 }

/-- `VideoReceiver._decode_frame` (with a callback set and PyAV
available): on success each produced frame resets the error counter,
bumps `frames_decoded` and is delivered to the callback together with
the orientation and mirror metadata; on a decode error the consecutive
error counter is incremented and, once it reaches 50, the decoder is
reinitialized. -/
def decode_frame (dec : Decoder) (st : RecvState) (h264 : List Nat)
    (orientation_degrees : Nat) (mirror : Bool) : RecvState :=
  match dec h264 with
  | some frames =>
      frames.foldl (fun s f =>
        { s with frames_decoded := s.frames_decoded + 1,
                 decode_error_count := 0,
                 emitted := s.emitted ++ [(f, orientation_degrees, mirror)] }) st
  | none =>
      let c := st.decode_error_count + 1
      if 50 ≤ c then init_decoder { st with decode_error_count := c }
      else { st with decode_error_count := c }

/-- The flags-byte parse of `_receive_loop`: bits 0–1 give the
orientation code (×90 for degrees), bit 7 the mirror flag. -/
def parse_flags (flags_byte : Nat) : Nat × Bool :=
  ((flags_byte &&& 0x03) * 90, (flags_byte &&& 0x80) != 0)

/-- The body of one `_receive_loop` iteration after the packet payload
has been read in full: payloads shorter than 2 bytes are skipped
(`continue`), otherwise the flags byte is parsed and the remainder
decoded. -/
def process_packet (dec : Decoder) (st : RecvState)
    (packet_data : List Nat) : RecvState :=
  if packet_data.length < 2 then st
  else
    let om := parse_flags (packet_data.headD 0)
    decode_frame dec st (packet_data.drop 1) om.1 om.2

/-- The receive loop run over a list of already-framed packet
payloads. -/
def receive_packets (dec : Decoder) (st : RecvState)
    (ps : List (List Nat)) : RecvState :=
  ps.foldl (process_packet dec) st

/-- The receiver state right after `start_receiving` reinitializes the
decoder for a fresh connection. -/
def initial_state : RecvState :=
  { decode_error_count := 0, frames_decoded := 0, reinit_count := 0,
    emitted := [], running := true }

/-- Big-endian interpretation of a byte list (`struct.unpack('>I', ·)`
applied to 4 bytes). -/
def u32_be (bs : List Nat) : Nat :=
  bs.foldl (fun acc b => acc * 256 + b) 0

/-- The 4-byte big-endian encoding of a length. -/
def be32 (n : Nat) : List Nat :=
  [n / 2 ^ 24 % 256, n / 2 ^ 16 % 256, n / 2 ^ 8 % 256, n % 256]

/-- Sender-side framing: `[4-byte big-endian length][flags][payload]`,
the length covering the flags byte and the payload. -/
def encode_packet (flags : Nat) (payload : List Nat) : List Nat :=
  be32 (1 + payload.length) ++ flags :: payload

/-- One iteration of `_receive_loop` on a raw byte stream: read exactly
4 bytes, interpret them as the big-endian packet size, read exactly
that many payload bytes, skip payloads shorter than 2 bytes, and
otherwise parse the flags byte and return
`(orientationDegrees, mirror, h264Data)`. -/
def receive_one (stream : List Nat) : Option (Nat × Bool × List Nat) :=
  if stream.length < 4 then none
  else
    let size := u32_be (stream.take 4)
    let rest := stream.drop 4
    if rest.length < size then none
    else
      let packet_data := rest.take size
      if packet_data.length < 2 then none
      else
        let om := parse_flags (packet_data.headD 0)
        some (om.1, om.2, packet_data.drop 1)

/-- `VanCameraApp.on_frame_received` from `ui_app.py`: the frame
callback installed on the receiver.  Its third positional parameter is
named `is_back_camera`; it produces the preview-path frame and the
sink-path (virtual-camera) frame. -/
def on_frame_received (frame : Mat) (orientation_degrees : Nat)
    (is_back_camera : Bool) : Mat × Mat :=
  (process_frame_for_preview frame orientation_degrees is_back_camera,
   process_frame_for_vcam frame orientation_degrees is_back_camera)

/-! ## Transport security (`certificate_handler.py` and `connect`) -/

/-- The two verification switches of a Python `ssl.SSLContext`:
`check_hostname` and whether `verify_mode` is `CERT_REQUIRED` (as
opposed to `CERT_NONE`). -/
structure SSLCtx where
  check_hostname : Bool
  verify_required : Bool
deriving Repr, DecidableEq

/-- `CertificateHandler.create_ssl_context`.  `ssl.create_default_context()`
starts with hostname checking on and `CERT_REQUIRED`; `verify_cert = false`
switches both off; otherwise, when a certificate path is set,
`load_verify_locations` is attempted — `load_ok` stands for whether that
file load succeeds — and on failure both switches are turned off as the
documented self-signed fallback. -/
def create_ssl_context (cert_path : Option String) (load_ok : Bool)
    (verify_cert : Bool) : SSLCtx :=
  if !verify_cert then ⟨false, false⟩
  else
    match cert_path with
    | some _ => if load_ok then ⟨true, true⟩ else ⟨false, false⟩
    | none => ⟨true, true⟩

/-- The SSL context built inside `VideoReceiver.connect`, which passes
`verify_cert = (cert_path is not None)`. -/
def connect_context (cert_path : Option String) (load_ok : Bool) : SSLCtx :=
  create_ssl_context cert_path load_ok cert_path.isSome

/-! ## Device discovery (`device_discovery.py`) -/

/-- One `(serial, status)` row reported by `adb devices`. -/
structure AdbDevice where
  serial : String
  status : String
deriving Repr, DecidableEq

/-- Events on the registry's lock/observer timeline: lock acquisition
and release, a registry map mutation, and one `_notify_change` round of
callback invocations. -/
inductive LockEv
  | acq
  | rel
  | mutate
  | invoke
deriving Repr, DecidableEq

/-- The device registry `self._devices` as an association list from
device id to device type (`"usb"` or `"wifi"`). -/
abbrev Registry := List (String × String)

/-- One iteration of the add loop of `_update_usb_devices`: the lock is
acquired for the device; if its id is not yet tracked the entry is
inserted and `_notify_change` is invoked before the lock is
released. -/
def usb_add_step (acc : Registry × List LockEv) (d : AdbDevice) :
    Registry × List LockEv :=
  if (acc.1.lookup ("usb:" ++ d.serial)).isSome then
    (acc.1, acc.2 ++ [.acq, .rel])
  else
    (acc.1 ++ [("usb:" ++ d.serial, "usb")],
     acc.2 ++ [.acq, .mutate, .invoke, .rel])

/-- The add loop of `_update_usb_devices`: devices whose status is not
`"device"` are skipped entirely; the rest go through
`usb_add_step`. -/
def usb_add_phase (adb : List AdbDevice) (reg : Registry) :
    Registry × List LockEv :=
  (adb.filter (fun d => d.status == "device")).foldl usb_add_step (reg, [])

/-- The stale-entry removal block of `_update_usb_devices`: under one
lock acquisition, every tracked USB device absent from the current
ready set is deleted, followed by a single `_notify_change` when at
least one entry was deleted. -/
def usb_remove_phase (adb : List AdbDevice) (reg : Registry) :
    Registry × List LockEv :=
  if (reg.filter (fun p => p.2 == "usb" &&
      !((adb.filter (fun d => d.status == "device")).map
        (fun d => "usb:" ++ d.serial)).contains p.1)).isEmpty then
    (reg, [.acq, .rel])
  else
    (reg.filter (fun p => !(p.2 == "usb" &&
      !((adb.filter (fun d => d.status == "device")).map
        (fun d => "usb:" ++ d.serial)).contains p.1)),
     [.acq, .mutate, .invoke, .rel])

/-- `DeviceDiscovery._update_usb_devices` with ADB available: the
per-device add loop followed by the batched removal block, with the
concatenated event trace. -/
def update_usb_devices (adb : List AdbDevice) (reg : Registry) :
    Registry × List LockEv :=
  ((usb_remove_phase adb (usb_add_phase adb reg).1).1,
   (usb_add_phase adb reg).2 ++
     (usb_remove_phase adb (usb_add_phase adb reg).1).2)

/-- `DeviceDiscovery._remove_devices_by_type` (the purge path): under
one lock acquisition all devices of the type are deleted, with a single
`_notify_change` when at least one was deleted. -/
def remove_devices_by_type (t : String) (reg : Registry) :
    Registry × List LockEv :=
  if (reg.filter (fun p => p.2 == t)).isEmpty then
    (reg, [.acq, .rel])
  else
    (reg.filter (fun p => !(p.2 == t)), [.acq, .mutate, .invoke, .rel])

/-- `DeviceDiscovery._on_mdns_service_added` once the service info has
resolved: under the lock the entry is inserted (or overwritten in
place) and `_notify_change` is invoked. -/
def mdns_service_added (name : String) (reg : Registry) :
    Registry × List LockEv :=
  (reg.filter (fun p => !(p.1 == "wifi:" ++ name)) ++
     [("wifi:" ++ name, "wifi")],
   [.acq, .mutate, .invoke, .rel])

/-- `DeviceDiscovery._on_mdns_service_removed`: under the lock the
entry is deleted and `_notify_change` invoked when it was present. -/
def mdns_service_removed (name : String) (reg : Registry) :
    Registry × List LockEv :=
  if (reg.lookup ("wifi:" ++ name)).isSome then
    (reg.filter (fun p => !(p.1 == "wifi:" ++ name)),
     [.acq, .mutate, .invoke, .rel])
  else (reg, [.acq, .rel])

/-- Scanning from lock depth `d`: every `invoke` event happens while
the lock depth is positive. -/
def invokes_locked_from (d : Nat) : List LockEv → Bool
  | [] => true
  | .acq :: tr => invokes_locked_from (d + 1) tr
  | .rel :: tr => invokes_locked_from (d - 1) tr
  | .mutate :: tr => invokes_locked_from d tr
  | .invoke :: tr => decide (0 < d) && invokes_locked_from d tr

/-- Scanning from lock depth `d`: no `invoke` event happens while the
lock depth is positive (the property C5 asserts). -/
def no_invoke_locked_from (d : Nat) : List LockEv → Bool
  | [] => true
  | .acq :: tr => no_invoke_locked_from (d + 1) tr
  | .rel :: tr => no_invoke_locked_from (d - 1) tr
  | .mutate :: tr => no_invoke_locked_from d tr
  | .invoke :: tr => decide (d = 0) && no_invoke_locked_from d tr

/-- Lock depth after processing a trace, starting from depth `d`. -/
def depth_after (d : Nat) : List LockEv → Nat
  | [] => d
  | .acq :: tr => depth_after (d + 1) tr
  | .rel :: tr => depth_after (d - 1) tr
  | .mutate :: tr => depth_after d tr
  | .invoke :: tr => depth_after d tr

/-- Number of `_notify_change` callback-invocation rounds in a trace. -/
def invoke_count : List LockEv → Nat
  | [] => 0
  | .invoke :: tr => invoke_count tr + 1
  | .acq :: tr => invoke_count tr
  | .rel :: tr => invoke_count tr
  | .mutate :: tr => invoke_count tr

/-! ## Virtual camera sink (`virtual_cam_bridge.py`) -/

/-- Width of a frame: the length of its first row (`frame.shape[1]`). -/
def matWidth (m : Mat) : Nat := (m.headD []).length

/-- Pixel access, black (0) outside the matrix. -/
def pixel (m : Mat) (i j : Nat) : Nat := (m.getD i []).getD j 0

/-- The scaling parameters `send_frame` computes when the incoming
frame's dimensions differ from the configured output: the uniform scale
`min(outW/inW, outH/inH)`, the truncated scaled dimensions and the
centered paste offsets `(outW - newW) // 2`, `(outH - newH) // 2`. -/
def scale_params (W H fw fh : Nat) : Nat × Nat × Nat × Nat :=
  ((⌊(fw : ℚ) * min ((W : ℚ) / fw) ((H : ℚ) / fh)⌋).toNat,
   (⌊(fh : ℚ) * min ((W : ℚ) / fw) ((H : ℚ) / fh)⌋).toNat,
   (W - (⌊(fw : ℚ) * min ((W : ℚ) / fw) ((H : ℚ) / fh)⌋).toNat) / 2,
   (H - (⌊(fh : ℚ) * min ((W : ℚ) / fw) ((H : ℚ) / fh)⌋).toNat) / 2)

/-- `VirtualCamBridge._fast_resize`: nearest-neighbour resize using the
index maps `arange(new) * old // new`. -/
def fast_resize (frame : Mat) (nw nh : Nat) : Mat :=
  (List.range nh).map (fun i =>
    (List.range nw).map (fun j =>
      pixel frame (i * frame.length / nh) (j * matWidth frame / nw)))

/-- numpy slice assignment
`canvas[py : py + resized.length, px : px + rowlen] = resized` on a
row-major matrix. -/
def paste (canvas resized : Mat) (px py : Nat) : Mat :=
  (List.range canvas.length).map (fun i =>
    if py ≤ i ∧ i < py + resized.length then
      (canvas.getD i []).take px ++ resized.getD (i - py) [] ++
        (canvas.getD i []).drop (px + (resized.getD (i - py) []).length)
    else canvas.getD i [])

/-- `VirtualCamBridge.send_frame` for an output size of `W × H`:
frames already at the output size pass through unchanged; any other
frame is resized by the cached scale parameters and pasted centered
onto the black canvas, which is what reaches `camera.send`. -/
def send_frame (W H : Nat) (frame : Mat) : Mat :=
  if frame.length = H ∧ matWidth frame = W then frame
  else
    paste (List.replicate H (List.replicate W 0))
      (fast_resize frame (scale_params W H (matWidth frame) frame.length).1
        (scale_params W H (matWidth frame) frame.length).2.1)
      (scale_params W H (matWidth frame) frame.length).2.2.1
      (scale_params W H (matWidth frame) frame.length).2.2.2

end VanCamera

open VanCamera

/-- C1 (counterexample): at `orientationDegrees = 180` the sink-path
back-camera transform does not rotate by `(360 − 180) mod 360 = 180`
before mirroring — the code only mirrors.  On the 1×2 frame `[[1, 2]]`
the code produces `[[2, 1]]` while rotate-then-mirror produces
`[[1, 2]]`. -/
theorem C1_cex_vcam_back_180 :
    process_frame_for_vcam [[1, 2]] 180 true ≠ back_sink_spec [[1, 2]] 180 := by
  decide

/-- C1 (amended): for back-camera frames on the sink path the transform
rotates by `(360 − orientationDegrees) mod 360` counter-clockwise and
then mirrors horizontally for `orientationDegrees ∈ {0, 90, 270}`; at
`180` it applies the horizontal mirror only (the same treatment as
`0`), with no rotation. -/
theorem C1_vcam_back_rotate_then_mirror (frame : Mat) (d : Nat)
    (h : d = 0 ∨ d = 90 ∨ d = 270) :
    process_frame_for_vcam frame d true = back_sink_spec frame d ∧
    process_frame_for_vcam frame 180 true = fliplr frame := by
  refine ⟨?_, by rfl⟩
  rcases h with h | h | h <;> subst h <;> rfl

/-- C1 witness: the amended theorem instantiated at a concrete frame
and `orientationDegrees = 90`. -/
theorem C1_vcam_back_witness :
    (0 = 0 ∨ 0 = 90 ∨ 0 = 270) ∧
    (process_frame_for_vcam [[1, 2], [3, 4]] 0 true =
        back_sink_spec [[1, 2], [3, 4]] 0 ∧
      process_frame_for_vcam [[1, 2], [3, 4]] 180 true =
        fliplr [[1, 2], [3, 4]]) :=
  ⟨Or.inl rfl, C1_vcam_back_rotate_then_mirror [[1, 2], [3, 4]] 0 (Or.inl rfl)⟩

/-- C10: for every front-camera frame and every
`orientationDegrees ∈ {0, 90, 180, 270}`, the preview-path transform is
the horizontal mirror of the sink-path transform; both rotate by
`orientationDegrees` directly (counter-clockwise, in units of 90°), the
sink path applies no extra mirror, and the preview path then mirrors
horizontally. -/
theorem C10_front_preview_mirror_of_sink (frame : Mat) (d : Nat)
    (h : d = 0 ∨ d = 90 ∨ d = 180 ∨ d = 270) :
    process_frame_for_preview frame d false =
      fliplr (process_frame_for_vcam frame d false) ∧
    process_frame_for_vcam frame d false = rot90k frame (d / 90) := by
  rcases h with h | h | h | h <;> subst h <;> exact ⟨rfl, rfl⟩

/-- C10 witness: the theorem instantiated at a concrete frame and
`orientationDegrees = 90`. -/
theorem C10_front_witness :
    (90 = 0 ∨ 90 = 90 ∨ 90 = 180 ∨ 90 = 270) ∧
    (process_frame_for_preview [[1, 2], [3, 4]] 90 false =
        fliplr (process_frame_for_vcam [[1, 2], [3, 4]] 90 false) ∧
      process_frame_for_vcam [[1, 2], [3, 4]] 90 false =
        rot90k [[1, 2], [3, 4]] (90 / 90)) :=
  ⟨Or.inr (Or.inl rfl),
    C10_front_preview_mirror_of_sink [[1, 2], [3, 4]] 90 (Or.inr (Or.inl rfl))⟩

/-- C3: a received packet whose payload is shorter than 2 bytes is
skipped: the loop state (error counter, frame counter, emitted frames,
running flag) is unchanged and the loop continues with the next
packet. -/
theorem C3_short_payload_skipped (dec : Decoder) (st : RecvState)
    (p : List Nat) (ps : List (List Nat)) (h : p.length < 2) :
    process_packet dec st p = st ∧
    receive_packets dec st (p :: ps) = receive_packets dec st ps := by
  have h1 : process_packet dec st p = st := by
    unfold process_packet
    rw [if_pos h]
  refine ⟨h1, ?_⟩
  unfold receive_packets
  rw [List.foldl_cons, h1]

/-- C3 witness: a 1-byte payload against the empty continuation. -/
theorem C3_short_payload_witness :
    ([(7 : Nat)].length < 2) ∧
    (process_packet (fun _ => none) initial_state [7] = initial_state ∧
      receive_packets (fun _ => none) initial_state [[7]] =
        receive_packets (fun _ => none) initial_state []) :=
  ⟨by decide,
    C3_short_payload_skipped (fun _ => none) initial_state [7] [] (by decide)⟩

/-- One failing decode step: the counter is bumped and, exactly when it
reaches 50, the decoder is reinitialized. -/
theorem process_packet_fail (c f r : Nat) (e : List (Mat × Nat × Bool)) :
    process_packet (fun _ => none) ⟨c, f, r, e, true⟩ [0, 0] =
      if 50 ≤ c + 1 then ⟨0, 0, r + 1, e, true⟩
      else ⟨c + 1, f, r, e, true⟩ := by
  by_cases h : 50 ≤ c + 1
  · rw [if_pos h]
    unfold process_packet decode_frame
    rw [if_neg (by decide)]
    show (if 50 ≤ c + 1 then _ else _) = _
    rw [if_pos h]
    rfl
  · rw [if_neg h]
    unfold process_packet decode_frame
    rw [if_neg (by decide)]
    show (if 50 ≤ c + 1 then _ else _) = _
    rw [if_neg h]

/-- A run of `k` failing decodes starting below the threshold just adds
`k` to the counter, with no reinitialization. -/
theorem receive_fail_run (k : Nat) : ∀ (c : Nat), c + k ≤ 49 →
    ∀ (f r : Nat) (e : List (Mat × Nat × Bool)),
    receive_packets (fun _ => none) ⟨c, f, r, e, true⟩
        (List.replicate k [0, 0]) = ⟨c + k, f, r, e, true⟩ := by
  induction k with
  | zero => intro c _ f r e; rfl
  | succ k ih =>
      intro c hc f r e
      rw [List.replicate_succ]
      unfold receive_packets
      rw [List.foldl_cons, process_packet_fail, if_neg (by omega)]
      have h1 := ih (c + 1) (by omega) f r e
      unfold receive_packets at h1
      rw [h1]
      have : c + 1 + k = c + (k + 1) := by omega
      rw [this]

/-- C4: starting from a consecutive-decode-error counter of 0, a run of
50 consecutive decode failures triggers exactly one decoder
reinitialization (none occurs during the first 49), after which the
counter is 0 again; the receive loop keeps running and the emitted
frame list is untouched throughout. -/
theorem C4_fifty_failures_one_reinit (f r : Nat)
    (e : List (Mat × Nat × Bool)) :
    receive_packets (fun _ => none)
        ⟨0, f, r, e, true⟩ (List.replicate 50 [0, 0]) =
      ⟨0, 0, r + 1, e, true⟩ ∧
    receive_packets (fun _ => none)
        ⟨0, f, r, e, true⟩ (List.replicate 49 [0, 0]) =
      ⟨49, f, r, e, true⟩ := by
  have h49 := receive_fail_run 49 0 (by omega) f r e
  rw [Nat.zero_add] at h49
  refine ⟨?_, h49⟩
  rw [show (50 : Nat) = 49 + 1 from rfl, List.replicate_add]
  unfold receive_packets
  rw [List.foldl_append]
  unfold receive_packets at h49
  rw [h49]
  rw [show List.replicate 1 ([0, 0] : List Nat) = [[0, 0]] from rfl,
    List.foldl_cons, List.foldl_nil, process_packet_fail, if_pos (by omega)]

/-- The 4-byte big-endian length prefix round-trips through
`struct.unpack('>I', ·)` below `2^32`. -/
theorem u32_be_be32 (n : Nat) (h : n < 2 ^ 32) : u32_be (be32 n) = n := by
  simp only [u32_be, be32, List.foldl_cons, List.foldl_nil]
  omega

/-- Masking with `0x03` keeps the low two bits. -/
theorem and_three_eq_mod (b : Nat) : b &&& 3 = b % 4 := by
  have h := Nat.and_pow_two_sub_one_eq_mod b 2
  norm_num at h
  exact h

/-- Testing `b &&& 0x80` against zero reads bit 7. -/
theorem and_128_eq_testBit (b : Nat) : ((b &&& 128) != 0) = b.testBit 7 := by
  have h := Nat.and_two_pow b 7
  norm_num at h
  rw [h]
  cases hb : b.testBit 7 <;> simp

/-- Parsing an encoded packet with a nonempty access unit recovers the
parsed flags and the payload. -/
theorem receive_one_encode (c q : Nat) (qs : List Nat)
    (hlen : qs.length + 2 < 2 ^ 32) :
    receive_one (encode_packet c (q :: qs)) =
      some ((parse_flags c).1, (parse_flags c).2, q :: qs) := by
  have hb4 : (be32 (1 + (q :: qs).length)).length = 4 := by
    simp [be32]
  have hn : u32_be (be32 (1 + (q :: qs).length)) = 1 + (q :: qs).length :=
    u32_be_be32 _ (by simp only [List.length_cons]; omega)
  simp only [encode_packet, receive_one, List.take_left' hb4,
    List.drop_left' hb4, hn]
  have h1 : ¬ ((be32 (1 + (q :: qs).length) ++ c :: q :: qs).length < 4) := by
    rw [List.length_append, hb4]; omega
  rw [if_neg h1]
  have h2 : ¬ ((c :: q :: qs).length < 1 + (q :: qs).length) := by
    simp only [List.length_cons]; omega
  rw [if_neg h2]
  have h3 : (c :: q :: qs).take (1 + (q :: qs).length) = c :: q :: qs :=
    List.take_of_length_le (by simp only [List.length_cons]; omega)
  rw [h3]
  have h4 : ¬ ((c :: q :: qs).length < 2) := by
    simp only [List.length_cons]; omega
  rw [if_neg h4]
  rfl

/-- C7: for every flags byte `b` in `0..255`, encoding
`[4-byte length][flags][payload]` and parsing it with the receiver
yields `orientationDegrees = (b % 4) * 90`, `mirror = bit 7 of b` and
the original payload (never a rejection); the result depends only on
bits 0–1 and bit 7 of the flags byte. -/
theorem C7_flags_roundtrip (b : Nat) (hb : b < 256) (payload : List Nat)
    (hp : payload ≠ []) (hlen : payload.length + 1 < 2 ^ 32) :
    receive_one (encode_packet b payload) =
      some ((b % 4) * 90, b.testBit 7, payload) ∧
    ∀ b' : Nat, b' < 256 → b' % 4 = b % 4 → b'.testBit 7 = b.testBit 7 →
      receive_one (encode_packet b' payload) =
        receive_one (encode_packet b payload) := by
  obtain ⟨q, qs, rfl⟩ : ∃ q qs, payload = q :: qs := by
    cases payload with
    | nil => exact absurd rfl hp
    | cons q qs => exact ⟨q, qs, rfl⟩
  simp only [List.length_cons] at hlen
  have key : ∀ a : Nat,
      receive_one (encode_packet a (q :: qs)) =
        some ((a % 4) * 90, a.testBit 7, q :: qs) := by
    intro a
    rw [receive_one_encode a q qs (by omega)]
    unfold parse_flags
    rw [and_three_eq_mod a, and_128_eq_testBit a]
  refine ⟨key b, fun b' _ h4 h7 => ?_⟩
  rw [key b, key b', h4, h7]

/-- C7 witness: flags byte `0x85` (orientation code 1, mirror bit set,
a reserved bit set) with payload `[9]`. -/
theorem C7_flags_roundtrip_witness :
    ((133 : Nat) < 256 ∧ ([9] : List Nat) ≠ [] ∧
        ([9] : List Nat).length + 1 < 2 ^ 32) ∧
    (receive_one (encode_packet 133 [9]) =
        some ((133 % 4) * 90, (133 : Nat).testBit 7, [9]) ∧
      ∀ b' : Nat, b' < 256 → b' % 4 = 133 % 4 →
        b'.testBit 7 = (133 : Nat).testBit 7 →
        receive_one (encode_packet b' [9]) =
          receive_one (encode_packet 133 [9])) :=
  ⟨⟨by decide, by decide, by decide⟩,
    C7_flags_roundtrip 133 (by decide) [9] (by decide) (by decide)⟩

/-- The successful-decode fold of `_decode_frame` appends one emitted
triple per produced frame, each carrying the packet's own
orientation/mirror metadata. -/
theorem fold_emitted (o : Nat) (m : Bool) (fs : List Mat) :
    ∀ st : RecvState,
    (fs.foldl (fun s f =>
      { s with frames_decoded := s.frames_decoded + 1,
               decode_error_count := 0,
               emitted := s.emitted ++ [(f, o, m)] }) st).emitted =
      st.emitted ++ fs.map (fun f => (f, o, m)) := by
  induction fs with
  | nil => intro st; simp
  | cons f fs ih =>
      intro st
      rw [List.foldl_cons, ih]
      simp

/-- C2: the third value the receiver delivers to the frame callback is
the packet's mirror flag (bit 7 of the flags byte), and the
application's `on_frame_received` binds that third value to its
`is_back_camera` selector: a set mirror bit selects the back-camera
transform chain on the sink path, a clear bit selects the front-camera
rotation. -/
theorem C2_mirror_bit_bound_to_back_camera (b : Nat) (hb : b < 256)
    (dec : Decoder) (st : RecvState) (h264 : List Nat) (hh : h264 ≠ [])
    (fs : List Mat) (hdec : dec h264 = some fs) :
    (parse_flags b).2 = b.testBit 7 ∧
    (process_packet dec st (b :: h264)).emitted =
      st.emitted ++ fs.map (fun f => (f, (b % 4) * 90, b.testBit 7)) ∧
    (∀ f o, b.testBit 7 = true →
        (on_frame_received f o (b.testBit 7)).2 =
          (if o = 0 then fliplr f
           else if o = 90 then fliplr (rot90k f 3)
           else if o = 180 then fliplr f
           else if o = 270 then fliplr (rot90k f 1)
           else f)) ∧
    (∀ f o, b.testBit 7 = false →
        (on_frame_received f o (b.testBit 7)).2 =
          rotate_front_camera f o) := by
  have hp1 : (parse_flags b).1 = (b % 4) * 90 := by
    unfold parse_flags
    rw [and_three_eq_mod b]
  have hp2 : (parse_flags b).2 = b.testBit 7 := by
    unfold parse_flags
    rw [and_128_eq_testBit b]
  refine ⟨hp2, ?_, ?_, ?_⟩
  · have hlen2 : ¬ ((b :: h264).length < 2) := by
      cases h264 with
      | nil => exact absurd rfl hh
      | cons x xs => simp only [List.length_cons]; omega
    unfold process_packet
    rw [if_neg hlen2]
    show (decode_frame dec st ((b :: h264).drop 1)
        (parse_flags ((b :: h264).headD 0)).1
        (parse_flags ((b :: h264).headD 0)).2).emitted = _
    rw [show (b :: h264).drop 1 = h264 from rfl,
      show (b :: h264).headD 0 = b from rfl]
    unfold decode_frame
    rw [hdec, fold_emitted, hp1, hp2]
  · intro f o h
    rw [h]
    rfl
  · intro f o h
    rw [h]
    rfl

/-- C2 witness: flags byte `0x85` (mirror bit set), a one-byte access
unit and a decoder oracle producing a single frame. -/
theorem C2_mirror_bit_witness :
    ((133 : Nat) < 256 ∧ ([1] : List Nat) ≠ [] ∧
        (fun _ : List Nat => some ([[[5]]] : List Mat)) [1] =
          some ([[[5]]] : List Mat)) ∧
    ((parse_flags 133).2 = (133 : Nat).testBit 7 ∧
      (process_packet (fun _ => some ([[[5]]] : List Mat)) initial_state
          (133 :: [1])).emitted =
        initial_state.emitted ++
          ([[[5]]] : List Mat).map
            (fun f => (f, (133 % 4) * 90, (133 : Nat).testBit 7)) ∧
      (∀ f o, (133 : Nat).testBit 7 = true →
          (on_frame_received f o ((133 : Nat).testBit 7)).2 =
            (if o = 0 then fliplr f
             else if o = 90 then fliplr (rot90k f 3)
             else if o = 180 then fliplr f
             else if o = 270 then fliplr (rot90k f 1)
             else f)) ∧
      (∀ f o, (133 : Nat).testBit 7 = false →
          (on_frame_received f o ((133 : Nat).testBit 7)).2 =
            rotate_front_camera f o)) :=
  ⟨⟨by decide, by decide, rfl⟩,
    C2_mirror_bit_bound_to_back_camera 133 (by decide)
      (fun _ => some ([[[5]]] : List Mat)) initial_state [1] (by decide)
      [[[5]]] rfl⟩

/-- C6 (counterexample): with a pinned certificate path configured but
the certificate file failing to load, `connect`'s context has hostname
and certificate verification disabled, so a present path does not by
itself enable verification and the claimed equivalence fails. -/
theorem C6_cex_pinned_path_load_failure :
    ¬ (((connect_context (some "cert.pem") false).check_hostname = true ∧
        (connect_context (some "cert.pem") false).verify_required = true) ↔
      (some "cert.pem" : Option String).isSome = true) := by
  decide

/-- C6 (amended): the SSL context used by `connect` has hostname and
certificate verification enabled if and only if a pinned certificate
path is configured AND that certificate file loads successfully; an
absent path, or a present path whose load fails, disables both. -/
theorem C6_verification_iff_pinned_and_loaded (p : Option String)
    (l : Bool) :
    (((connect_context p l).check_hostname = true ∧
      (connect_context p l).verify_required = true) ↔
    (p.isSome = true ∧ l = true)) := by
  cases p <;> cases l <;>
    simp [connect_context, create_ssl_context]

/-- Splitting the locked-invocation check across a trace
concatenation. -/
theorem invokes_locked_append (t u : List LockEv) : ∀ d : Nat,
    invokes_locked_from d (t ++ u) =
      (invokes_locked_from d t &&
        invokes_locked_from (depth_after d t) u) := by
  induction t with
  | nil =>
      intro d
      simp [invokes_locked_from, depth_after]
  | cons e t ih =>
      intro d
      cases e <;>
        simp [invokes_locked_from, depth_after, ih, Bool.and_assoc]

/-- Lock depth across a trace concatenation. -/
theorem depth_after_append (t u : List LockEv) : ∀ d : Nat,
    depth_after d (t ++ u) = depth_after (depth_after d t) u := by
  induction t with
  | nil => intro d; rfl
  | cons e t ih =>
      intro d
      cases e <;> simp [depth_after, ih]

/-- Invocation count across a trace concatenation. -/
theorem invoke_count_append (t u : List LockEv) :
    invoke_count (t ++ u) = invoke_count t + invoke_count u := by
  induction t with
  | nil => simp [invoke_count]
  | cons e t ih =>
      cases e <;> simp [invoke_count, ih] <;> omega

/-- Invariant of the USB add loop: its trace is balanced and every one
of its callback invocations happens under the lock. -/
theorem usb_add_fold_locked (l : List AdbDevice) :
    ∀ p : Registry × List LockEv,
    invokes_locked_from 0 p.2 = true → depth_after 0 p.2 = 0 →
    invokes_locked_from 0 (l.foldl usb_add_step p).2 = true ∧
    depth_after 0 (l.foldl usb_add_step p).2 = 0 := by
  induction l with
  | nil => intro p h1 h2; exact ⟨h1, h2⟩
  | cons d l ih =>
      intro p h1 h2
      rw [List.foldl_cons]
      apply ih
      · unfold usb_add_step
        split
        · show invokes_locked_from 0 (p.2 ++ [.acq, .rel]) = true
          rw [invokes_locked_append, h1, h2]
          rfl
        · show invokes_locked_from 0
            (p.2 ++ [.acq, .mutate, .invoke, .rel]) = true
          rw [invokes_locked_append, h1, h2]
          rfl
      · unfold usb_add_step
        split
        · show depth_after 0 (p.2 ++ [.acq, .rel]) = 0
          rw [depth_after_append, h2]
          rfl
        · show depth_after 0 (p.2 ++ [.acq, .mutate, .invoke, .rel]) = 0
          rw [depth_after_append, h2]
          rfl

/-- C5 (counterexample): a direct-attach poll that discovers one new
ready device invokes the registered callbacks at lock depth 1 —
`_notify_change()` sits inside the `with self._lock:` block — so the
claimed never-invoked-while-locked property is false. -/
theorem C5_cex_usb_add_notifies_under_lock :
    no_invoke_locked_from 0
        (update_usb_devices [⟨"A", "device"⟩] []).2 = false ∧
    invoke_count (update_usb_devices [⟨"A", "device"⟩] []).2 = 1 := by
  constructor <;> rfl

/-- C5 (amended): registered device-change callbacks are always
invoked while the registry lock is held: for every registry mutation
path (USB poll add/remove, purge by type, mDNS add/update, mDNS
remove), every callback invocation in the event trace happens at
positive lock depth, inside the same critical section as the map
mutation. -/
theorem C5_callbacks_invoked_under_lock (adb : List AdbDevice)
    (reg : Registry) (t name : String) :
    invokes_locked_from 0 (update_usb_devices adb reg).2 = true ∧
    invokes_locked_from 0 (remove_devices_by_type t reg).2 = true ∧
    invokes_locked_from 0 (mdns_service_added name reg).2 = true ∧
    invokes_locked_from 0 (mdns_service_removed name reg).2 = true := by
  refine ⟨?_, ?_, ?_, ?_⟩
  · have h := usb_add_fold_locked
      (adb.filter (fun d => d.status == "device")) (reg, []) rfl rfl
    unfold update_usb_devices
    rw [invokes_locked_append]
    unfold usb_add_phase at h ⊢
    rw [h.1, h.2, Bool.true_and]
    unfold usb_remove_phase
    split
    · rfl
    · rfl
  · unfold remove_devices_by_type
    split
    · rfl
    · rfl
  · rfl
  · unfold mdns_service_removed
    split
    · rfl
    · rfl

/-- Counting invariant of the USB add loop: every newly inserted
registry entry comes with exactly one callback-invocation round of its
own. -/
theorem usb_add_fold_count (l : List AdbDevice) :
    ∀ p : Registry × List LockEv,
    invoke_count (l.foldl usb_add_step p).2 + p.1.length =
      invoke_count p.2 + (l.foldl usb_add_step p).1.length := by
  induction l with
  | nil => intro p; rfl
  | cons d l ih =>
      intro p
      rw [List.foldl_cons]
      have h := ih (usb_add_step p d)
      have hk : (invoke_count (usb_add_step p d).2 = invoke_count p.2 ∧
            (usb_add_step p d).1.length = p.1.length) ∨
          (invoke_count (usb_add_step p d).2 = invoke_count p.2 + 1 ∧
            (usb_add_step p d).1.length = p.1.length + 1) := by
        unfold usb_add_step
        split
        · left
          constructor
          · show invoke_count (p.2 ++ [.acq, .rel]) = _
            rw [invoke_count_append]
            rfl
          · rfl
        · right
          constructor
          · show invoke_count (p.2 ++ [.acq, .mutate, .invoke, .rel]) = _
            rw [invoke_count_append]
            rfl
          · simp
      rcases hk with ⟨hc, hl⟩ | ⟨hc, hl⟩ <;> omega

/-- C8 (counterexample): a single poll cycle that adds two new ready
devices and removes one stale device invokes the registered callbacks
three times — once per added device plus one batched removal round —
not once for the whole cycle. -/
theorem C8_cex_per_device_add_notifications :
    invoke_count (update_usb_devices
        [⟨"A", "device"⟩, ⟨"B", "device"⟩] [("usb:C", "usb")]).2 = 3 ∧
    (update_usb_devices [⟨"A", "device"⟩, ⟨"B", "device"⟩]
        [("usb:C", "usb")]).1 =
      [("usb:A", "usb"), ("usb:B", "usb")] := by
  constructor <;> rfl

/-- C8 (amended): within one direct-attach poll cycle, removals are
batched — the removal block contributes at most one callback round,
and exactly one precisely when some stale entry was deleted — while
additions are notified per device: the total number of callback rounds
equals the number of registry entries inserted by the add loop plus
the removal block's rounds. -/
theorem C8_adds_per_device_removals_batched (adb : List AdbDevice)
    (reg : Registry) :
    invoke_count (update_usb_devices adb reg).2 + reg.length =
      (usb_add_phase adb reg).1.length +
        invoke_count (usb_remove_phase adb (usb_add_phase adb reg).1).2 ∧
    invoke_count (usb_remove_phase adb (usb_add_phase adb reg).1).2 ≤ 1 := by
  constructor
  · unfold update_usb_devices
    rw [invoke_count_append]
    have h := usb_add_fold_count
      (adb.filter (fun d => d.status == "device")) (reg, [])
    simp only [invoke_count] at h
    unfold usb_add_phase
    omega
  · unfold usb_remove_phase
    split
    · show invoke_count [.acq, .rel] ≤ 1
      decide
    · show invoke_count [.acq, .mutate, .invoke, .rel] ≤ 1
      decide

/-- `getD` on an append, index inside the left part. -/
theorem getD_append_left {α : Type} (l l' : List α) (n : Nat) (d : α)
    (h : n < l.length) : (l ++ l').getD n d = l.getD n d := by
  simp only [List.getD_eq_getElem?_getD, List.getElem?_append_left h]

/-- `getD` on an append, index past the left part. -/
theorem getD_append_right {α : Type} (l l' : List α) (n : Nat) (d : α)
    (h : l.length ≤ n) :
    (l ++ l').getD n d = l'.getD (n - l.length) d := by
  simp only [List.getD_eq_getElem?_getD, List.getElem?_append_right h]

/-- `getD` out of range returns the default. -/
theorem getD_of_length_le {α : Type} (l : List α) (n : Nat) (d : α)
    (h : l.length ≤ n) : l.getD n d = d := by
  simp only [List.getD_eq_getElem?_getD, List.getElem?_eq_none h]
  rfl

/-- `getD` inside a `replicate`. -/
theorem getD_replicate {α : Type} (a d : α) (n i : Nat) (h : i < n) :
    (List.replicate n a).getD i d = a := by
  simp only [List.getD_eq_getElem?_getD, List.getElem?_replicate_of_lt h]
  rfl

/-- `getD` on a mapped range, index in range. -/
theorem getD_range_map {α : Type} (g : Nat → α) (n i : Nat) (d : α)
    (h : i < n) : ((List.range n).map g).getD i d = g i := by
  simp only [List.getD_eq_getElem?_getD, List.getElem?_map,
    List.getElem?_range h]
  rfl

/-- The letterbox scale parameters for a 1280×720 sink receiving a
640×480 frame: scale 3/2, scaled size 960×720, centered paste offsets
(160, 0). -/
theorem scale_params_scenario :
    scale_params 1280 720 640 480 = (960, 720, 160, 0) := by
  unfold scale_params
  norm_num [min_def]
  decide

/-- The scaled dimensions never exceed the output and reach it in at
least one dimension: aspect-preserving, never cropping. -/
theorem scale_params_fit (W H fw fh : Nat) (hfw : 0 < fw)
    (hfh : 0 < fh) :
    (scale_params W H fw fh).1 ≤ W ∧ (scale_params W H fw fh).2.1 ≤ H ∧
    ((scale_params W H fw fh).1 = W ∨ (scale_params W H fw fh).2.1 = H) := by
  have hfw0 : (fw : ℚ) ≠ 0 := Nat.cast_ne_zero.mpr hfw.ne'
  have hfh0 : (fh : ℚ) ≠ 0 := Nat.cast_ne_zero.mpr hfh.ne'
  have hWfw : (fw : ℚ) * ((W : ℚ) / fw) = (W : ℚ) := by
    rw [mul_comm, div_mul_cancel₀ _ hfw0]
  have hHfh : (fh : ℚ) * ((H : ℚ) / fh) = (H : ℚ) := by
    rw [mul_comm, div_mul_cancel₀ _ hfh0]
  have h1 : (fw : ℚ) * min ((W : ℚ) / fw) ((H : ℚ) / fh) ≤ (W : ℚ) := by
    calc (fw : ℚ) * min ((W : ℚ) / fw) ((H : ℚ) / fh)
        ≤ (fw : ℚ) * ((W : ℚ) / fw) :=
          mul_le_mul_of_nonneg_left (min_le_left _ _) (by positivity)
      _ = (W : ℚ) := hWfw
  have h2 : (fh : ℚ) * min ((W : ℚ) / fw) ((H : ℚ) / fh) ≤ (H : ℚ) := by
    calc (fh : ℚ) * min ((W : ℚ) / fw) ((H : ℚ) / fh)
        ≤ (fh : ℚ) * ((H : ℚ) / fh) :=
          mul_le_mul_of_nonneg_left (min_le_right _ _) (by positivity)
      _ = (H : ℚ) := hHfh
  have hf1 : (⌊(fw : ℚ) * min ((W : ℚ) / fw) ((H : ℚ) / fh)⌋).toNat ≤ W := by
    have h := Int.floor_le_floor h1
    rw [Int.floor_natCast] at h
    omega
  have hf2 : (⌊(fh : ℚ) * min ((W : ℚ) / fw) ((H : ℚ) / fh)⌋).toNat ≤ H := by
    have h := Int.floor_le_floor h2
    rw [Int.floor_natCast] at h
    omega
  unfold scale_params
  refine ⟨hf1, hf2, ?_⟩
  rcases min_choice ((W : ℚ) / fw) ((H : ℚ) / fh) with hmin | hmin
  · left
    show (⌊(fw : ℚ) * min ((W : ℚ) / fw) ((H : ℚ) / fh)⌋).toNat = W
    rw [hmin, hWfw, Int.floor_natCast, Int.toNat_ofNat]
  · right
    show (⌊(fh : ℚ) * min ((W : ℚ) / fw) ((H : ℚ) / fh)⌋).toNat = H
    rw [hmin, hHfh, Int.floor_natCast, Int.toNat_ofNat]

/-- On a 640×480 frame the 1280×720 sink takes the letterbox path with
the scenario's cached parameters. -/
theorem send_frame_scenario (frame : Mat) (hh : frame.length = 480)
    (hw : matWidth frame = 640) :
    send_frame 1280 720 frame =
      paste (List.replicate 720 (List.replicate 1280 0))
        (fast_resize frame 960 720) 160 0 := by
  have hcond : ¬ (frame.length = 720 ∧ matWidth frame = 1280) := by
    rw [hh, hw]
    decide
  have hsp : scale_params 1280 720 (matWidth frame) frame.length =
      (960, 720, 160, 0) := by
    rw [hh, hw]
    exact scale_params_scenario
  unfold send_frame
  rw [if_neg hcond, hsp]

/-- The letterboxed output has exactly the canvas's rows. -/
theorem paste_length (canvas resized : Mat) (px py : Nat) :
    (paste canvas resized px py).length = canvas.length := by
  unfold paste
  rw [List.length_map, List.length_range]

/-- Each row of the scenario output is 160 black pixels, the 960
resized pixels, then 160 black pixels. -/
theorem send_frame_scenario_row (frame : Mat) (hh : frame.length = 480)
    (hw : matWidth frame = 640) (i : Nat) (hi : i < 720) :
    (send_frame 1280 720 frame).getD i [] =
      List.replicate 160 0 ++
        ((List.range 960).map
          (fun j => pixel frame (i * 480 / 720) (j * 640 / 960)) ++
         List.replicate 160 0) := by
  rw [send_frame_scenario frame hh hw]
  have hRlen : (fast_resize frame 960 720).length = 720 := by
    unfold fast_resize
    rw [List.length_map, List.length_range]
  have hR : (fast_resize frame 960 720).getD i [] =
      (List.range 960).map
        (fun j => pixel frame (i * 480 / 720) (j * 640 / 960)) := by
    unfold fast_resize
    rw [getD_range_map _ 720 i _ hi, hh, hw]
  unfold paste
  rw [List.length_replicate, getD_range_map _ 720 i _ hi]
  rw [if_pos ⟨Nat.zero_le i, by omega⟩]
  rw [getD_replicate _ _ 720 i hi, Nat.sub_zero, hR,
    List.length_map, List.length_range]
  rw [List.take_replicate, List.drop_replicate]
  norm_num [List.append_assoc]

/-- C9: the letterbox path of `sendFrame` — the scale parameters are
`min(outW/inW, outH/inH)` with truncated scaled dimensions that fit the
output and reach it in one dimension (never cropping); in the
1280×720-sink / 640×480-frame scenario the scale is 1.5, the resized
frame is 960×720 pasted at horizontal offset 160, every output row has
the output width, all pixels outside columns 160..1119 are black, and
columns 160..1119 carry the nearest-neighbour-resized frame. -/
theorem C9_letterbox_scenario (frame : Mat) (hh : frame.length = 480)
    (hw : matWidth frame = 640) :
    scale_params 1280 720 640 480 = (960, 720, 160, 0) ∧
    (∀ W H fw fh : Nat, 0 < fw → 0 < fh →
      (scale_params W H fw fh).1 ≤ W ∧
      (scale_params W H fw fh).2.1 ≤ H ∧
      ((scale_params W H fw fh).1 = W ∨ (scale_params W H fw fh).2.1 = H)) ∧
    (send_frame 1280 720 frame).length = 720 ∧
    (∀ i, i < 720 → ((send_frame 1280 720 frame).getD i []).length = 1280) ∧
    (∀ i x, x < 160 ∨ 1120 ≤ x → pixel (send_frame 1280 720 frame) i x = 0) ∧
    (∀ i j, i < 720 → j < 960 →
      pixel (send_frame 1280 720 frame) i (160 + j) =
        pixel frame (i * 480 / 720) (j * 640 / 960)) := by
  have hlen : (send_frame 1280 720 frame).length = 720 := by
    rw [send_frame_scenario frame hh hw, paste_length, List.length_replicate]
  refine ⟨scale_params_scenario, fun W H fw fh hfw hfh =>
    scale_params_fit W H fw fh hfw hfh, hlen, ?_, ?_, ?_⟩
  · intro i hi
    rw [send_frame_scenario_row frame hh hw i hi]
    simp only [List.length_append, List.length_replicate, List.length_map,
      List.length_range]
  · intro i x hx
    by_cases hi : i < 720
    · show ((send_frame 1280 720 frame).getD i []).getD x 0 = 0
      rw [send_frame_scenario_row frame hh hw i hi]
      rcases hx with hx | hx
      · rw [getD_append_left _ _ x 0
          (by rw [List.length_replicate]; omega)]
        exact getD_replicate _ _ 160 x hx
      · by_cases hx' : x < 1280
        · rw [getD_append_right _ _ x 0
            (by rw [List.length_replicate]; omega)]
          rw [List.length_replicate]
          rw [getD_append_right _ _ (x - 160) 0
            (by rw [List.length_map, List.length_range]; omega)]
          rw [List.length_map, List.length_range]
          exact getD_replicate _ _ 160 (x - 160 - 960) (by omega)
        · rw [getD_of_length_le _ x 0 ?_]
          simp only [List.length_append, List.length_replicate,
            List.length_map, List.length_range]
          omega
    · show ((send_frame 1280 720 frame).getD i []).getD x 0 = 0
      rw [getD_of_length_le _ i [] (by omega), List.getD_nil]
  · intro i j hi hj
    show ((send_frame 1280 720 frame).getD i []).getD (160 + j) 0 = _
    rw [send_frame_scenario_row frame hh hw i hi]
    rw [getD_append_right _ _ (160 + j) 0
      (by rw [List.length_replicate]; omega)]
    rw [List.length_replicate]
    rw [show 160 + j - 160 = j from by omega]
    rw [getD_append_left _ _ j 0
      (by rw [List.length_map, List.length_range]; omega)]
    exact getD_range_map _ 960 j 0 hj

/-- C9 witness: a uniform gray 640×480 frame. -/
theorem C9_letterbox_witness :
    ((List.replicate 480 (List.replicate 640 7) : Mat).length = 480 ∧
      matWidth (List.replicate 480 (List.replicate 640 7)) = 640) ∧
    (scale_params 1280 720 640 480 = (960, 720, 160, 0) ∧
      (∀ W H fw fh : Nat, 0 < fw → 0 < fh →
        (scale_params W H fw fh).1 ≤ W ∧
        (scale_params W H fw fh).2.1 ≤ H ∧
        ((scale_params W H fw fh).1 = W ∨
          (scale_params W H fw fh).2.1 = H)) ∧
      (send_frame 1280 720
          (List.replicate 480 (List.replicate 640 7))).length = 720 ∧
      (∀ i, i < 720 →
        ((send_frame 1280 720 (List.replicate 480 (List.replicate 640 7))).getD
            i []).length = 1280) ∧
      (∀ i x, x < 160 ∨ 1120 ≤ x →
        pixel (send_frame 1280 720
          (List.replicate 480 (List.replicate 640 7))) i x = 0) ∧
      (∀ i j, i < 720 → j < 960 →
        pixel (send_frame 1280 720
            (List.replicate 480 (List.replicate 640 7))) i (160 + j) =
          pixel (List.replicate 480 (List.replicate 640 7))
            (i * 480 / 720) (j * 640 / 960))) :=
  ⟨⟨List.length_replicate 480 (List.replicate 640 7), by
      show ((List.replicate 480 (List.replicate 640 (7 : Nat))).headD
          []).length = 640
      rw [show (List.replicate 480 (List.replicate 640 (7 : Nat))).headD [] =
          List.replicate 640 7 from rfl]
      rw [List.length_replicate]⟩,
    C9_letterbox_scenario (List.replicate 480 (List.replicate 640 7))
      (List.length_replicate 480 (List.replicate 640 7)) (by
        show ((List.replicate 480 (List.replicate 640 (7 : Nat))).headD
            []).length = 640
        rw [show (List.replicate 480 (List.replicate 640 (7 : Nat))).headD
            [] = List.replicate 640 7 from rfl]
        rw [List.length_replicate])⟩
